import Mathlib

/-!
Verification of the entab streaming-parser core against its source.

Bytes are modelled as `Nat` values (each < 256 in any real window); byte
windows are `List Nat`.  Machine arithmetic that cannot overflow in the
source (checked below per site) is modelled directly on `Nat`/`Int`.
Real-valued fields (`f64` m/z lists, times) are modelled in `ℚ`: every
claim settled here depends only on which bytes feed each field and on
counts/indices, never on IEEE-754 rounding; `f32` intensities are kept as
their raw little-endian bit pattern.
-/

deriving instance DecidableEq for Except

namespace Entab

/-- An entab error value: the message together with the `incomplete`
recoverability flag (`src/entab/src/error.rs`, struct `EtError`; the
optional context and original-error carrier are modelled separately for
the error-display development below). -/
structure EtErr where
  msg : String
  incomplete : Bool
deriving DecidableEq, Repr

/-- Outcome of running a piece of Rust code that may also panic
(out-of-bounds indexing, arithmetic overflow).  A `panic` is an abnormal
abort, distinct from returning an `EtError`. -/
inductive ROut (α : Type) where
  | ok (a : α)
  | err (e : EtErr)
  | panic (what : String)
deriving DecidableEq, Repr

/-- Whether an `Except` value is an error. -/
def isErr {e a : Type} : Except e a → Bool
  | .error _ => true
  | .ok _ => false

/-- Modelled from the spec: the extraction primitives of `crate::parsers`
(the file is not under `src/`; §4.2 of the spec describes them).  A
bounds violation is an `incomplete` error when `eof` is false and a
terminal error otherwise; the message of such a bounds error is not
specified and is fixed here as "not enough data". -/
def boundsErr (eof : Bool) : EtErr := ⟨"not enough data", !eof⟩

/-- Modelled from the spec: fixed-width read of `n` bytes at `con`;
returns the sub-slice, failing on a short slice (spec §4.2,
"Fixed-width byte slice"). -/
def readBytesAt (rb : List Nat) (con n : Nat) : Option (List Nat) :=
  if con + n ≤ rb.length then some ((rb.drop con).take n) else none

/-- Little-endian `u16` value of a 2-byte slice. -/
def u16leVal (bs : List Nat) : Nat :=
  bs.getD 0 0 + 256 * bs.getD 1 0

/-- Little-endian `u32` value of a 4-byte slice. -/
def u32leVal (bs : List Nat) : Nat :=
  bs.getD 0 0 + 256 * bs.getD 1 0 + 65536 * bs.getD 2 0 + 16777216 * bs.getD 3 0

/-- Big-endian `u32` value of a 4-byte slice. -/
def u32beVal (bs : List Nat) : Nat :=
  bs.getD 3 0 + 256 * bs.getD 2 0 + 65536 * bs.getD 1 0 + 16777216 * bs.getD 0 0

/-- Little-endian `i32`: two's complement of the `u32` value. -/
def i32ofU32 (v : Nat) : Int :=
  if v < 2 ^ 31 then (v : Int) else (v : Int) - 2 ^ 32

/-- Modelled from the spec: `extract::<u32>(rb, con, Endian::Little)`
(spec §4.2, "Integer decode"): reads 4 bytes at the cursor, advancing it. -/
def extractU32le (rb : List Nat) (eof : Bool) (con : Nat) : Except EtErr (Nat × Nat) :=
  match readBytesAt rb con 4 with
  | none => .error (boundsErr eof)
  | some bs => .ok (u32leVal bs, con + 4)

/-- Modelled from the spec: `extract::<u16>(rb, con, Endian::Little)`. -/
def extractU16le (rb : List Nat) (eof : Bool) (con : Nat) : Except EtErr (Nat × Nat) :=
  match readBytesAt rb con 2 with
  | none => .error (boundsErr eof)
  | some bs => .ok (u16leVal bs, con + 2)

/-- Modelled from the spec: `extract::<i32>(rb, con, Endian::Little)`. -/
def extractI32le (rb : List Nat) (eof : Bool) (con : Nat) : Except EtErr (Int × Nat) :=
  match readBytesAt rb con 4 with
  | none => .error (boundsErr eof)
  | some bs => .ok (i32ofU32 (u32leVal bs), con + 4)

/-- Modelled from the spec: `extract::<f32>(rb, con, Endian::Little)`;
the IEEE-754 value is kept as its raw little-endian bit pattern (no claim
depends on the decoded float). -/
def extractF32bits (rb : List Nat) (eof : Bool) (con : Nat) : Except EtErr (Nat × Nat) :=
  match readBytesAt rb con 4 with
  | none => .error (boundsErr eof)
  | some bs => .ok (u32leVal bs, con + 4)

/-- Modelled from the spec: `extract::<&[u8]>(rb, con, n)` /
`extract::<Skip>(rb, con, n)`: advance the cursor by `n`, bounds-checked. -/
def extractSkip (rb : List Nat) (eof : Bool) (con n : Nat) : Except EtErr Nat :=
  if con + n ≤ rb.length then .ok (con + n) else .error (boundsErr eof)

/-- First index of `pat` as a contiguous sub-list of `rb` (a literal
substring search, as the spec's pattern seek requires). -/
def findPat (rb pat : List Nat) : Option Nat :=
  match rb with
  | [] => if pat.isPrefixOf ([] : List Nat) then some 0 else none
  | _ :: t => if pat.isPrefixOf rb then some 0 else (findPat t pat).map (· + 1)

/-- Modelled from the spec: `extract_opt::<SeekPattern>` (spec §4.2,
"Pattern seek"): scan forward from the cursor; on a match set the cursor
to the byte after the match and return it; on a miss return `none` at
eof and an incomplete error otherwise. -/
def seekPattern (rb : List Nat) (eof : Bool) (con : Nat) (pat : List Nat) :
    Except EtErr (Option Nat) :=
  match findPat (rb.drop con) pat with
  | some i => .ok (some (con + i + pat.length))
  | none => if eof then .ok none else .error ⟨"not enough data", true⟩

/-! ### Agilent Chemstation header prelude

`read_agilent_header` from `src/entab/src/readers/agilent/mod.rs`
(lines 20–42).  The `u32` fits in 64-bit `usize` arithmetic, so
`2 * (raw - 1)` and the `* 256` cannot overflow and are modelled on
`Nat` (the `raw = 0` case is rejected before the subtraction). -/

/-- `read_agilent_header(rb, ms_format)`: decide how many bytes of header
to skip before the data section. -/
def read_agilent_header (rb : List Nat) (ms_format : Bool) : Except EtErr Nat :=
  if rb.length < 268 then .error ⟨"Agilent header too short", true⟩
  else
    let raw_header_size := u32beVal ((rb.drop 264).take 4)
    if raw_header_size = 0 then .error ⟨"Invalid header length of 0", false⟩
    else
      let header_size := 2 * (raw_header_size - 1) * (if ms_format then 1 else 256)
      if header_size < 512 then .error ⟨"Header length too short", false⟩
      else if header_size > 20000 then .error ⟨"Header length too long", false⟩
      else match extractSkip rb false 0 header_size with
        | .error e => .error e
        | .ok con => .ok con

/-! ### Inficon Hapsite reader

`src/entab/src/readers/inficon.rs`.  The m/z lists have element type
`f64` in the source; they are modelled in `ℚ` (the divisions by `100.`
and `60000.` are the only arithmetic, and no claim depends on their
IEEE-754 rounding).  The checked `u32` arithmetic `end_mz + 1` and
`mz += 100` cannot overflow because `end_mz < 4e9` has been enforced, so
the loop is modelled on `Nat`. -/

/-- The 44-byte pattern ending the "instrument collection steps"
section (`InficonState::parse`, line 38). -/
def infPat1 : List Nat :=
  [255, 255, 255, 255] ++ List.replicate 32 0 ++ [246, 255, 255, 255, 0, 0, 0, 0]

/-- The pattern `FF FF FF FF HapsGPIR` before the scan data. -/
def infPat2 : List Nat := [255, 255, 255, 255, 72, 97, 112, 115, 71, 80, 73, 82]

/-- The bytes of `b"HapsScan"`. -/
def hapsScanBytes : List Nat := [72, 97, 112, 115, 83, 99, 97, 110]

/-- The full-scan push loop with explicit fuel (one unit per loop
iteration is ample, since `mz` grows by 100 per iteration). -/
def scanMzGo : Nat → Nat → Nat → List ℚ
  | 0, _, _ => []
  | fuel + 1, mz, end_mz =>
    if mz < end_mz + 1 then ((mz : ℚ) / 100) :: scanMzGo fuel (mz + 100) end_mz else []

/-- The full-scan push loop (`InficonState::parse`, lines 69–73):
`while mz < end_mz + 1 { segment.push(mz / 100); mz += 100 }`. -/
def scanMzLoop (mz end_mz : Nat) : List ℚ :=
  scanMzGo (end_mz + 1 - mz) mz end_mz

/-- The remainder of an m/z entry after the range check
(`InficonState::parse`, lines 61–74): the 16-byte skip (dwell time and
three `u32`s), the `u32` `i_type`, a 4-byte skip, then the SIM or
full-scan push. -/
def parseMzEntryTail (rb : List Nat) (eof : Bool) (con start_mz end_mz : Nat) :
    Except EtErr (List ℚ × Nat) :=
  match extractSkip rb eof con 16 with
  | .error e => .error e
  | .ok con =>
  match extractU32le rb eof con with
  | .error e => .error e
  | .ok (i_type, con) =>
  match extractSkip rb eof con 4 with
  | .error e => .error e
  | .ok con =>
  if i_type = 0 then .ok ([(start_mz : ℚ) / 100], con)
  else .ok (scanMzLoop start_mz end_mz, con)

/-- One m/z entry of a segment (`InficonState::parse`, lines 54–74):
two little-endian `u32`, the range check, and the rest of the entry;
the result is the list of values pushed onto the segment and the cursor. -/
def parseMzEntry (rb : List Nat) (eof : Bool) (con : Nat) :
    Except EtErr (List ℚ × Nat) :=
  match extractU32le rb eof con with
  | .error e => .error e
  | .ok (start_mz, con) =>
  match extractU32le rb eof con with
  | .error e => .error e
  | .ok (end_mz, con) =>
  if start_mz ≥ end_mz ∨ end_mz ≥ 4000000000 then
    .error ⟨"m/z range is too big or invalid", false⟩
  else parseMzEntryTail rb eof con start_mz end_mz

/-- The `for _ in 0..n_mzs` loop filling one segment. -/
def parseEntries (rb : List Nat) (eof : Bool) :
    Nat → Nat → List ℚ → Except EtErr (List ℚ × Nat)
  | 0, con, acc => .ok (acc, con)
  | n + 1, con, acc =>
    match parseMzEntry rb eof con with
    | .error e => .error e
    | .ok (vals, con) => parseEntries rb eof n con (acc ++ vals)

/-- The loop over the `n_segments` collection segments
(`InficonState::parse`, lines 48–76): a 96-byte skip, the `u32` `n_mzs`
and the entry loop per segment. -/
def parseSegments (rb : List Nat) (eof : Bool) :
    Nat → Nat → List (List ℚ) → Except EtErr (List (List ℚ) × Nat)
  | 0, con, acc => .ok (acc, con)
  | n + 1, con, acc =>
    match extractSkip rb eof con 96 with
    | .error e => .error e
    | .ok con =>
    match extractU32le rb eof con with
    | .error e => .error e
    | .ok (n_mzs, con) =>
    match parseEntries rb eof n_mzs con [] with
    | .error e => .error e
    | .ok (seg, con) => parseSegments rb eof n con (acc ++ [seg])

/-- The body of `InficonState::parse` (lines 36–91), threading the local
cursor `con` from 0; on success it returns the finished segment table,
the `data_left` value and the final cursor. -/
def inficonStateBody (rb : List Nat) (eof : Bool) :
    Except EtErr (List (List ℚ) × Nat × Nat) :=
  match seekPattern rb eof 0 infPat1 with
  | .error e => .error e
  | .ok none => .error ⟨"Could not find m/z header list", false⟩
  | .ok (some con) =>
  match extractSkip rb eof con 148 with
  | .error e => .error e
  | .ok con =>
  match extractU32le rb eof con with
  | .error e => .error e
  | .ok (n_segments, con) =>
  if n_segments > 10000 then .error ⟨"Inficon file has too many segments", false⟩
  else
  match parseSegments rb eof n_segments con [] with
  | .error e => .error e
  | .ok (mz_segments, con) =>
  match seekPattern rb eof con infPat2 with
  | .error e => .error e
  | .ok none => .error ⟨"Could not find start of scan data", false⟩
  | .ok (some con) =>
  match extractSkip rb eof con 180 with
  | .error e => .error e
  | .ok con =>
  match extractU32le rb eof con with
  | .error e => .error e
  | .ok (data_length, con) =>
  match extractSkip rb eof con 8 with
  | .error e => .error e
  | .ok con =>
  match readBytesAt rb con 8 with
  | none => .error (boundsErr eof)
  | some bs =>
  if bs ≠ hapsScanBytes then .error ⟨"Data header was malformed", false⟩
  else
  match extractSkip rb eof (con + 8) 56 with
  | .error e => .error e
  | .ok con => .ok (mz_segments, data_length, con)

/-- Result of `InficonState::parse`: the `Result<bool, EtError>` value,
and the caller-visible `consumed` counter after the call.  On success the
returned triple carries the new `(mz_segments, data_left)` state. -/
structure StateParseOut where
  res : Except EtErr (Bool × List (List ℚ) × Nat)
  consumed : Nat
deriving DecidableEq, Repr

/-- `InficonState::parse(rb, eof, consumed, (mz_segments, data_left))`
(lines 27–92).  All extraction advances the local cursor `con`; `consumed`
is incremented by `con` only on the single `Ok(true)` exit.  The input
state `_st` is overwritten unconditionally (line 47) before ever being
read, and on error the partially overwritten state is discarded together
with the failed constructor, so the error arm carries no state. -/
def InficonState.parse (rb : List Nat) (eof : Bool) (consumed : Nat)
    (_st : List (List ℚ) × Nat) : StateParseOut :=
  match inficonStateBody rb eof with
  | .error e => ⟨.error e, consumed⟩
  | .ok (mz_segments, data_left, con) => ⟨.ok (true, mz_segments, data_left), consumed + con⟩

/-- The fields of the Rust struct `InficonState` (lines 12–20). -/
structure InficonState where
  mzSegments : List (List ℚ)
  dataLeft : Nat
  curTime : ℚ
  curMz : ℚ
  /-- raw little-endian `f32` bit pattern of the last intensity -/
  curIntensity : Nat
  curSegment : Nat
  mzsLeft : Nat
deriving DecidableEq, Repr

/-- Result of `InficonRecord::parse`: outcome (`Ok`/`Err`/panic), the
caller-visible `consumed` counter, and the mutable `InficonState` as left
by the call (field writes before a failure point stay visible, exactly as
for the `&mut` state in the source). -/
structure RecParseOut where
  res : ROut Bool
  consumed : Nat
  state : InficonState
deriving DecidableEq, Repr

/-- `InficonRecord::parse(rb, eof, consumed, state)` (lines 114–159).
Note three behaviors taken verbatim from the source: the early return
`Ok(false)` fires when `data_left > 0` (line 120); the burst-header
branch updates the local `mzs_left` but the m/z lookup on line 154 reads
the *field* `state.mzs_left`; `usize` subtraction underflow and `Vec`
indexing beyond bounds are Rust panics, modelled as `.panic`. -/
def InficonRecord.parse (rb : List Nat) (eof : Bool) (consumed : Nat)
    (state : InficonState) : RecParseOut :=
  if state.dataLeft > 0 then ⟨.ok false, consumed, state⟩ else
  -- burst header (lines 125–151): read when no burst is in progress;
  -- errors carry the state as mutated so far
  let hd : Except (EtErr × InficonState) (Nat × InficonState × Nat) :=
    if state.mzsLeft = 0 then
      match extractU32le rb eof 0 with
      | .error e => .error (e, state)
      | .ok (_, con) =>
      match extractI32le rb eof con with
      | .error e => .error (e, state)
      | .ok (time_raw, con) =>
      let st := { state with curTime := (time_raw : ℚ) / 60000 }
      match extractU16le rb eof con with
      | .error e => .error (e, st)
      | .ok (_, con) =>
      match extractU16le rb eof con with
      | .error e => .error (e, st)
      | .ok (n_mzs, con) =>
      match extractU16le rb eof con with
      | .error e => .error (e, st)
      | .ok (_, con) =>
      match extractU16le rb eof con with
      | .error e => .error (e, st)
      | .ok (seg_raw, con) =>
      let st := { st with curSegment := seg_raw >>> 4 }
      if st.curSegment ≥ st.mzSegments.length then
        .error (⟨"Invalid segment number (" ++ toString st.curSegment ++ ") specified",
                 false⟩, st)
      else if n_mzs ≠ (st.mzSegments.getD st.curSegment []).length then
        .error (⟨"Number of intensities (" ++ toString n_mzs ++
                 ") doesn't match number of mzs (" ++
                 toString (st.mzSegments.getD st.curSegment []).length ++ ")", false⟩, st)
      else .ok (n_mzs, st, con)
    else .ok (state.mzsLeft, state, 0)
  match hd with
  | .error (e, st) => ⟨.err e, consumed, st⟩
  | .ok (mzs_left, st, con) =>
    match extractF32bits rb eof con with
    | .error e => ⟨.err e, consumed, st⟩
    | .ok (bits, con) =>
      let st := { st with curIntensity := bits }
      match st.mzSegments.get? st.curSegment with
      | none => ⟨.panic "index out of bounds", consumed, st⟩
      | some cur_mz_segment =>
        if cur_mz_segment.length < st.mzsLeft then
          ⟨.panic "attempt to subtract with overflow", consumed, st⟩
        else
          match cur_mz_segment.get? (cur_mz_segment.length - st.mzsLeft) with
          | none => ⟨.panic "index out of bounds", consumed, st⟩
          | some v =>
            ⟨.ok true, consumed + con,
             { st with curMz := v, mzsLeft := mzs_left - 1,
                       dataLeft := st.dataLeft - con }⟩

/-- Modelled from the spec: `InficonReader::new(data, (Vec::new(), 0))`
(the `impl_reader` macro is not under `src/`).  Construction wraps the
slice in a buffer with `eof = true` and populates the state from the
header with the first internal call, i.e. `InficonState::parse`; on
success further requests see the window advanced by `consumed` and a
record state with `Default` working fields. -/
def inficonReaderNew (data : List Nat) :
    Except EtErr (InficonState × Nat) :=
  let out := InficonState.parse data true 0 ([], 0)
  match out.res with
  | .error e => .error e
  | .ok (_, mz_segments, data_left) =>
      .ok ({ mzSegments := mz_segments, dataLeft := data_left, curTime := 0,
             curMz := 0, curIntensity := 0, curSegment := 0, mzsLeft := 0 },
           out.consumed)

/-- Modelled from the spec: constructing the producer and requesting the
first record (driver glue of `impl_reader`, not under `src/`): a request
runs `InficonRecord::parse` on the unread window. -/
def inficonFirstRecord (data : List Nat) : ROut Bool :=
  match inficonReaderNew data with
  | .error e => .err e
  | .ok (st, used) => (InficonRecord.parse (data.drop used) true 0 st).res

/-- Fuzz payload 1 of the source's `bad_inficon_fuzzes` test
(`src/entab/src/readers/inficon.rs`, lines 185–267). -/
def inficonFuzz1 : List Nat :=
 [ 4, 3, 2, 1, 83, 80, 65, 72, 66, 255, 255, 255, 255, 0, 0, 0, 0, 0, 0, 0, 0, 0, 0, 0, 0, 0,
  0, 0, 0, 0, 0, 0, 0, 0, 0, 0, 0, 0, 0, 0, 0, 0, 0, 0, 0, 246, 255, 255, 255, 0, 0, 0, 0, 14,
  14, 14, 14, 14, 14, 14, 255, 255, 255, 255, 255, 255, 255, 255, 255, 255, 248, 10, 10, 10,
  10, 35, 4, 0, 0, 0, 0, 0, 0, 10, 10, 10, 10, 10, 62, 10, 10, 26, 0, 0, 0, 42, 42, 4, 0, 0,
  0, 0, 0, 0, 10, 10, 10, 10, 10, 62, 10, 10, 10, 0, 0, 0, 0, 0, 0, 0, 16, 42, 42, 42, 10, 62,
  10, 10, 26, 0, 0, 0, 42, 42, 4, 0, 0, 0, 0, 0, 0, 10, 10, 10, 10, 10, 62, 10, 10, 10, 0, 0,
  0, 0, 0, 0, 0, 16, 42, 42, 42]

/-- Fuzz payload 2 of the source's `bad_inficon_fuzzes` test
(`src/entab/src/readers/inficon.rs`, lines 185–267). -/
def inficonFuzz2 : List Nat :=
 [ 4, 3, 2, 1, 83, 80, 65, 72, 4, 1, 10, 255, 255, 255, 0, 3, 197, 65, 77, 1, 62, 1, 0, 0, 255,
  255, 255, 255, 255, 255, 62, 10, 10, 10, 10, 62, 10, 10, 10, 8, 10, 62, 10, 10, 62, 10, 10,
  10, 9, 10, 62, 10, 10, 62, 10, 10, 62, 26, 10, 10, 10, 45, 10, 59, 9, 0, 255, 255, 255, 255,
  0, 0, 0, 0, 0, 0, 0, 0, 0, 0, 0, 0, 0, 0, 0, 0, 0, 0, 0, 0, 0, 0, 0, 0, 0, 0, 0, 0, 0, 0, 0,
  0, 246, 255, 255, 255, 0, 0, 0, 0, 71, 71, 71, 71, 71, 38, 200, 62, 10, 255, 255, 255, 255,
  169, 77, 86, 139, 139, 116, 116, 116, 116, 116, 246, 245, 245, 240, 255, 255, 241, 0, 0, 0,
  0, 10, 10, 10, 10, 10, 10, 10, 10, 10, 10, 10, 10, 10, 62, 10, 227, 205, 10, 10, 62, 10, 0,
  62, 10, 10, 1, 0, 62, 10, 10, 34, 0, 0, 0, 0, 0, 0, 0, 10, 10, 10, 10, 8, 10, 10, 10, 10,
  10, 10, 10, 10, 10, 10, 10, 10, 10, 10, 10, 10, 245, 10, 10, 10, 10, 240, 10, 62, 10, 10,
  10, 42, 10, 0, 0, 0, 0, 0, 0, 0, 0, 0, 0, 0, 168, 168, 168, 168, 168, 168, 168, 168, 168,
  168, 168, 168, 168, 134, 134, 14, 62, 10, 10, 62, 59, 42, 10, 10, 10, 62, 0, 13, 10, 10,
  227, 10, 10, 62, 0, 13, 10, 10, 227, 59, 10, 10, 0, 10, 10, 62, 41, 0, 13, 10, 10, 10, 227,
  10, 10, 62, 0, 13, 10, 10, 10, 62, 10, 10, 8, 10, 62, 10, 10, 10, 10, 10, 62, 10, 10, 10,
  62, 10, 10, 10, 10, 62, 10, 10, 10, 9, 10, 62, 10, 10, 255, 255, 255, 175, 255, 255, 255,
  255, 255, 255, 255, 255, 255, 255, 255, 255, 255, 255, 255, 255, 255, 255, 255, 255, 255,
  255, 255, 255, 255, 255, 255, 10, 10, 10, 9, 10, 62, 45, 10, 59, 9, 0]

/-- Fuzz payload 3 of the source's `bad_inficon_fuzzes` test
(`src/entab/src/readers/inficon.rs`, lines 185–267). -/
def inficonFuzz3 : List Nat :=
 [ 4, 3, 2, 1, 83, 80, 65, 72, 66, 65, 77, 1, 62, 1, 230, 255, 255, 251, 254, 254, 254, 254,
  168, 168, 168, 168, 168, 168, 168, 168, 168, 168, 168, 0, 10, 62, 10, 59, 10, 10, 10, 10,
  10, 10, 10, 10, 10, 10, 0, 0, 0, 0, 1, 0, 0, 0, 0, 0, 0, 0, 0, 0, 0, 0, 0, 0, 0, 0, 0, 0, 0,
  0, 0, 0, 0, 0, 0, 0, 0, 0, 0, 0, 0, 0, 0, 0, 0, 0, 0, 0, 255, 255, 255, 255, 0, 0, 0, 0, 0,
  0, 0, 0, 0, 0, 0, 0, 0, 0, 0, 0, 0, 0, 0, 0, 0, 0, 0, 0, 0, 0, 0, 0, 0, 0, 0, 0, 246, 255,
  255, 255, 0, 0, 0, 0, 10, 10, 102, 13, 10, 35, 24, 10, 62, 13, 10, 13, 227, 5, 62, 10, 227,
  134, 134, 10, 62, 10, 10, 62, 42, 10, 10, 10, 62, 0, 13, 10, 10, 227, 10, 10, 62, 0, 13, 10,
  10, 227, 59, 10, 10, 250, 255, 10, 62, 41, 0, 13, 10, 10, 227, 43, 10, 10, 10, 10, 10, 10,
  47, 59, 10, 10, 62, 0, 13, 10, 10, 227, 10, 10, 227, 59, 10, 10, 0, 10, 10, 10, 10, 26, 10,
  10, 41, 0, 13, 10, 10, 227, 59, 10, 10, 10, 10, 10, 14, 10, 255, 255, 255, 255, 176, 0, 0,
  0, 0, 0, 0, 0, 0, 0, 0, 0, 0, 0, 0, 0, 0, 0, 0, 0, 255, 255, 255, 255, 255, 255, 255, 255,
  255, 255, 175, 255, 255, 255, 255, 255, 255, 255, 255, 255, 255, 255, 255, 255, 255, 255,
  255, 255, 255, 255, 255, 255, 255, 255, 255, 245, 240, 255, 255, 255, 255, 255, 169, 77, 86,
  139, 139, 116, 35, 116, 116, 116, 246, 245, 245, 240, 250, 255, 10, 62, 41, 0, 13, 10, 10,
  227, 43, 10, 10, 10, 10, 10, 10, 47, 59, 10, 10, 4, 3, 2, 1, 83, 80, 181, 181, 181, 181, 0,
  0, 0, 0, 0, 0, 0, 0, 0, 0, 0, 0, 0, 0, 0, 0, 0, 0, 0, 0, 0, 0, 0, 0, 0, 0, 0, 255, 255, 255,
  255, 255, 255, 255, 58, 255, 255, 255, 255, 255, 255, 255, 255, 255, 255, 255, 255, 255,
  255, 255, 255, 255, 255, 255, 255, 255, 255, 255, 255, 255, 122, 255, 255, 255, 255, 0, 0,
  0, 0, 0, 0, 0, 0, 0, 0, 0, 0, 0, 0, 0, 0, 0, 0, 0, 0, 0, 0, 0, 0, 0, 0, 0, 0, 0, 0, 0, 0,
  246, 255, 255, 255, 0, 0, 0, 0, 59, 10, 10, 10, 10, 10, 14, 10, 255, 10, 10, 10, 10, 0, 0,
  0, 0, 0, 0, 0, 0, 0, 0, 0, 255, 255, 116, 116, 246, 245, 245, 240]

/-- Fuzz payload 4 of the source's `bad_inficon_fuzzes` test
(`src/entab/src/readers/inficon.rs`, lines 185–267). -/
def inficonFuzz4 : List Nat :=
 [ 4, 3, 2, 1, 83, 80, 65, 72, 66, 168, 255, 255, 255, 255, 255, 255, 255, 255, 255, 255, 255,
  255, 255, 255, 255, 10, 26, 0, 0, 0, 0, 0, 0, 0, 255, 255, 255, 255, 0, 0, 0, 0, 0, 0, 0, 0,
  0, 0, 0, 0, 0, 0, 0, 0, 0, 0, 0, 0, 0, 0, 0, 0, 0, 0, 0, 0, 0, 0, 0, 0, 246, 255, 255, 255,
  0, 0, 0, 0, 10, 10, 102, 13, 10, 35, 24, 10, 62, 13, 10, 13, 227, 5, 62, 10, 227, 134, 134,
  10, 62, 10, 10, 62, 42, 10, 10, 10, 62, 0, 13, 10, 10, 227, 10, 10, 62, 0, 13, 10, 10, 227,
  59, 10, 10, 250, 255, 10, 62, 41, 0, 13, 10, 10, 227, 43, 10, 10, 10, 10, 10, 10, 47, 59,
  10, 10, 62, 0, 13, 10, 10, 227, 10, 10, 227, 59, 10, 10, 0, 10, 10, 10, 10, 26, 10, 10, 41,
  0, 13, 10, 10, 227, 59, 10, 10, 10, 10, 10, 14, 10, 255, 10, 10, 10, 10, 0, 0, 0, 0, 0, 0,
  0, 0, 0, 0, 0, 181, 181, 181, 181, 181, 0, 0, 0, 0, 0, 0, 0, 83, 55, 159, 159, 0, 0, 10, 0,
  0, 0, 0, 0, 0, 0, 0, 0, 0, 0, 0, 0, 0, 0, 0, 0, 0, 0, 227, 43, 10, 10, 10, 10, 10, 10, 47,
  59, 10, 10, 10, 10, 62, 42, 10, 10, 10, 62, 0, 13, 10, 10, 227, 10, 10, 62, 0, 13, 10, 10,
  227, 59, 10, 10, 250, 255, 10, 62, 41, 0, 13, 10, 10, 227, 43, 10, 10, 10, 10, 0, 10, 10,
  10, 10, 26, 10, 10, 41, 0, 13, 10, 10, 227, 59, 10, 10, 10, 10, 10, 14, 10, 255, 10, 10, 10,
  10, 0, 0, 0, 0, 0, 0, 0, 0, 0, 0, 0, 245, 240, 255, 255, 255, 255, 255, 169, 77, 86, 139,
  139, 116, 35, 116, 116, 116, 246, 245, 245, 240, 10, 10, 10, 10, 14, 10, 0, 0, 0, 0, 0, 0,
  0, 0, 0, 0, 0, 245, 240, 255, 255, 255, 255, 255, 169, 77, 86, 139, 139, 116, 35, 116, 246,
  245, 245, 240]

/-- `u32` little-endian byte encoding, for building concrete inputs. -/
def u32le (v : Nat) : List Nat := [v % 256, v / 256 % 256, v / 65536 % 256, v / 16777216 % 256]

/-- `u16` little-endian byte encoding, for building concrete inputs. -/
def u16le (v : Nat) : List Nat := [v % 256, v / 256 % 256]

/-- A well-formed Inficon header (one segment, one SIM m/z entry,
`data_length = 0`) followed by one well-formed burst record of one
intensity. -/
def inficonPanicInput : List Nat :=
  infPat1 ++ List.replicate 148 0 ++ u32le 1
    ++ List.replicate 96 0 ++ u32le 1
    ++ u32le 100 ++ u32le 300 ++ List.replicate 16 0 ++ u32le 0 ++ List.replicate 4 0
    ++ infPat2 ++ List.replicate 180 0 ++ u32le 0 ++ List.replicate 8 0
    ++ hapsScanBytes ++ List.replicate 56 0
    ++ u32le 1 ++ u32le 60000 ++ u16le 1 ++ u16le 1 ++ u16le 65535 ++ u16le 15
    ++ u32le 0

/-! ### Error context and display

`src/entab/src/error.rs`.  The `ReadBuffer` struct itself lives in
`buffer.rs`, which is not under `src/`; its four fields are those the
spec's data model lists.  `buffer.as_ref()` is the full owned window
(`error.rs`'s own `test_context_display` shows all 16 window bytes in the
context even with `consumed = 10`), while parsers see `window[consumed..]`. -/

/-- Modelled from the spec: the read buffer's data (spec §3,
"Read buffer"): the owned window, `consumed`, `reader_pos`, `record_pos`. -/
structure ReadBuffer where
  window : List Nat
  consumed : Nat
  reader_pos : Nat
  record_pos : Nat
deriving DecidableEq, Repr

/-- `EtErrorContext` (`error.rs`, lines 20–33). -/
structure EtErrorContext where
  byte : Nat
  record : Nat
  context : List Nat
  context_pos : Nat
deriving DecidableEq, Repr

/-- `EtError` with its context field (`error.rs`, lines 35–46); the
`orig_err` carrier holds no data any claim observes. -/
structure EtError where
  msg : String
  context : Option EtErrorContext
  incomplete : Bool
deriving DecidableEq, Repr

/-- `EtError::new(msg)` (`error.rs`, lines 50–58). -/
def EtError.new (msg : String) : EtError := ⟨msg, none, false⟩

/-- `EtError::add_context(self, buffer)` (`error.rs`, lines 69–97): pick
up to 32 bytes of window context around the fault byte and record the
absolute byte and record positions. -/
def EtError.add_context (self : EtError) (buffer : ReadBuffer) : EtError :=
  let buf := buffer.window
  let buf_len := buf.length
  let cp : List Nat × Nat :=
    if buffer.consumed < 16 then
      if buf_len < buffer.consumed + 16 then (buf, buffer.consumed)
      else (buf.take (buffer.consumed + 16), buffer.consumed)
    else
      if buf_len < buffer.consumed + 16 then
        if buffer.consumed < buf_len then (buf.drop (buffer.consumed - 16), 16)
        else ([], 0)
      else ((buf.drop (buffer.consumed - 16)).take 32, 16)
  { self with
    context := some { record := buffer.record_pos,
                      byte := buffer.reader_pos + buffer.consumed,
                      context := cp.1, context_pos := cp.2 } }

/-- Uppercase hex digit. -/
def hexDigit (n : Nat) : Char := "0123456789ABCDEF".toList.getD n '0'

/-- Rust `{:X}` of a byte value: minimal uppercase hex digits. -/
def hexByte (c : Nat) : String :=
  if c < 16 then String.mk [hexDigit c]
  else String.mk [hexDigit (c / 16), hexDigit (c % 16)]

/-- The ASCII gloss piece for one context byte: ` c` for printable
ASCII, two spaces otherwise (`error.rs`, lines 108–114). -/
def asciiPiece (c : Nat) : String :=
  if 31 < c ∧ c < 127 then String.mk [' ', Char.ofNat c] else "  "

/-- Rust `{:>width$}`: right-align `s` in a field of `width` characters. -/
def rightAlign (s : String) (width : Nat) : String :=
  String.mk (List.replicate (width - s.length) ' ') ++ s

/-- `Display for EtError` (`error.rs`, lines 100–125): the message line,
then (when context is present) the hex row, the ASCII gloss row, and the
caret row `{:>2*context_pos} {byte}`. -/
def EtError.display (self : EtError) : String :=
  self.msg ++ "\n" ++
    match self.context with
    | none => ""
    | some c =>
        String.join (c.context.map hexByte) ++ "\n" ++
        String.join (c.context.map asciiPiece) ++ "\n" ++
        rightAlign "^^" (2 * c.context_pos) ++ " " ++ toString c.byte ++ "\n"

/-! ### FASTA reader

`FastaReader::next` from `src/src/readers/fasta.rs` (lines 72–151).  The
`ReadBuffer` of this tree exposes the unread view `window[consumed..]`
through indexing/`len`/`is_empty`; `refill` pulls the source's next chunk
into the window and `eof()` holds when the source is exhausted.  The
byte source is modelled as the list of chunks it has yet to yield, so
`eof()` is `chunks = []` and `refill` moves one chunk into the window. -/

/-- Indices of `\n` bytes, ascending (`memchr_iter(b'\n', ..)`). -/
def nlIndices : List Nat → List Nat
  | [] => []
  | b :: t => (if b = 10 then [0] else []) ++ (nlIndices t).map (· + 1)

/-- First index of a `\n` byte (`memchr(b'\n', ..)`). -/
def memchrNl (l : List Nat) : Option Nat := l.findIdx? (fun b => b = 10)

/-- The `memchr_iter` loop over sequence newlines (`fasta.rs`, lines
94–105): collect newline indices (and the index of a preceding `\r`),
stopping early when the byte after a newline is `>`. -/
def scanNewlines (u : List Nat) (seq_start : Nat) :
    List Nat → List Nat → List Nat × Bool
  | [], acc => (acc, false)
  | raw_pos :: rest, acc =>
    let pos := seq_start + raw_pos
    let acc := if 0 < pos ∧ u.getD (pos - 1) 0 = 13
               then acc ++ [raw_pos - 1, raw_pos] else acc ++ [raw_pos]
    if pos + 1 < u.length ∧ u.getD (pos + 1) 0 = 62 then (acc, true)
    else scanNewlines u seq_start rest acc

/-- The trailing-newline pop loop with explicit fuel (one unit per
popped element is ample). -/
def popTrailingGo : Nat → List Nat → Nat → Nat × List Nat
  | 0, l, endpos => (endpos, l)
  | fuel + 1, l, endpos =>
    match l.getLast? with
    | none => (endpos, l)
    | some x =>
        if 0 < endpos ∧ x = endpos - 1 then popTrailingGo fuel l.dropLast (endpos - 1)
        else (endpos, l)

/-- The trailing-newline pop loop (`fasta.rs`, lines 119–121):
`while endpos > 0 && seq_newlines.last() == Some(endpos - 1) { endpos = pop() }`. -/
def popTrailing (l : List Nat) (endpos : Nat) : Nat × List Nat :=
  popTrailingGo l.length l endpos

/-- Rebuild the sequence without the newline bytes (`fasta.rs`, lines
137–144): concatenate `raw[start..pos]` slices between the recorded
positions, then the tail `raw[start..]`. -/
def removeNewlinesGo (raw : List Nat) : List Nat → Nat → List Nat
  | [], start => raw.drop start
  | pos :: rest, start => ((raw.take pos).drop start) ++ removeNewlinesGo raw rest (pos + 1)

/-- Continuation byte `80..BF`. -/
def isCont (b : Nat) : Bool := decide (128 ≤ b ∧ b ≤ 191)

/-- Strict UTF-8 validity of a byte list, as `str::from_utf8` checks it
(shortest-form encodings only, surrogates and values above U+10FFFF
rejected). -/
def isValidUtf8 : List Nat → Bool
  | [] => true
  | b :: rest =>
    if b ≤ 127 then isValidUtf8 rest
    else if 194 ≤ b ∧ b ≤ 223 then
      match rest with
      | c1 :: r => isCont c1 && isValidUtf8 r
      | _ => false
    else if b = 224 then
      match rest with
      | c1 :: c2 :: r => decide (160 ≤ c1 ∧ c1 ≤ 191) && isCont c2 && isValidUtf8 r
      | _ => false
    else if 225 ≤ b ∧ b ≤ 236 then
      match rest with
      | c1 :: c2 :: r => isCont c1 && isCont c2 && isValidUtf8 r
      | _ => false
    else if b = 237 then
      match rest with
      | c1 :: c2 :: r => decide (128 ≤ c1 ∧ c1 ≤ 159) && isCont c2 && isValidUtf8 r
      | _ => false
    else if 238 ≤ b ∧ b ≤ 239 then
      match rest with
      | c1 :: c2 :: r => isCont c1 && isCont c2 && isValidUtf8 r
      | _ => false
    else if b = 240 then
      match rest with
      | c1 :: c2 :: c3 :: r =>
          decide (144 ≤ c1 ∧ c1 ≤ 191) && isCont c2 && isCont c3 && isValidUtf8 r
      | _ => false
    else if 241 ≤ b ∧ b ≤ 243 then
      match rest with
      | c1 :: c2 :: c3 :: r => isCont c1 && isCont c2 && isCont c3 && isValidUtf8 r
      | _ => false
    else if b = 244 then
      match rest with
      | c1 :: c2 :: c3 :: r =>
          decide (128 ≤ c1 ∧ c1 ≤ 143) && isCont c2 && isCont c3 && isValidUtf8 r
      | _ => false
    else false

/-- The reader's buffer over its byte source: the owned window, the
`consumed` offset, and the chunks the source has yet to yield
(`eof() = chunks = []`; `refill` moves the next chunk into the window). -/
structure FastaState where
  window : List Nat
  consumed : Nat
  chunks : List (List Nat)
deriving DecidableEq, Repr

/-- The record produced by one `next()` call: the header text (UTF-8
checked; kept as its bytes) and the assembled sequence bytes. -/
structure FastaRecOut where
  id : List Nat
  sequence : List Nat
deriving DecidableEq, Repr

/-- The ranges the `loop` of `FastaReader::next` breaks with
(`fasta.rs`, line 127): `(1..header_end, seq_start..seq_end, rec_end)`
plus the surviving `seq_newlines`. -/
structure FastaBreak where
  header_end : Nat
  seq_start : Nat
  seq_newlines : List Nat
  seq_end : Nat
  rec_end : Nat
deriving DecidableEq, Repr

/-- One iteration of the `loop` of `FastaReader::next` (`fasta.rs`,
lines 80–128) over the current unread window: find the header line end,
scan the sequence for newlines and the next `>`, and break with the
record's ranges.  `none` means the iteration hit a `refill`-and-`continue`
point (no `\n` yet, or record end not in the window, while not at eof). -/
def fastaStep (window : List Nat) (consumed : Nat) (eof : Bool) :
    Option (Except EtErr FastaBreak) :=
  let u := window.drop consumed
  match memchrNl u with
  | none => if eof then some (.error ⟨"Incomplete record", false⟩) else none
  | some p =>
    let hs := if 0 < p ∧ u.getD (p - 1) 0 = 13 then (p - 1, p + 1) else (p, p + 1)
    let sres := scanNewlines u hs.2 (nlIndices (u.drop hs.2)) []
    if sres.2 = false ∧ ¬ eof then none
    else if sres.2 then
      match sres.1.getLast? with
      | none =>
          -- `found_end` implies a newline was pushed; the Rust `unwrap`
          -- cannot fail here
          some (.error ⟨"unreachable: pop from empty seq_newlines", false⟩)
      | some endpos0 =>
          let pt := popTrailing sres.1.dropLast endpos0
          some (.ok ⟨hs.1, hs.2, pt.2, hs.2 + pt.1, hs.2 + endpos0 + 1⟩)
    else
      -- not found, at eof: (seq_end, rec_end) = (len, len)
      some (.ok ⟨hs.1, hs.2, sres.1, u.length, u.length⟩)

/-- The `loop` of `FastaReader::next`: run `fastaStep`, refilling one
source chunk and retrying at each `continue` point; returns the break
value (or the error) together with the window and source chunks as the
refills left them. -/
def fastaLoop (consumed : Nat) :
    List Nat → List (List Nat) → Except EtErr FastaBreak × List Nat × List (List Nat)
  | window, [] =>
      match fastaStep window consumed true with
      | some r => (r, window, [])
      | none => (.error ⟨"unreachable: continue at eof", false⟩, window, [])
  | window, c :: rest =>
      match fastaStep window consumed false with
      | some r => (r, window, c :: rest)
      | none => fastaLoop consumed (window ++ c) rest

/-- `FastaReader::next` (`fasta.rs`, lines 72–151): `Ok(None)` on an
empty unread window, the `'>'` check, the range-finding loop, `consume`,
newline stripping, and the UTF-8 check of the header (whose failure
message is `FromUtf8Error`'s display, not observed by any claim). -/
def FastaReader.next (s : FastaState) : Except EtErr (Option FastaRecOut) × FastaState :=
  let u := s.window.drop s.consumed
  if u.isEmpty then (.ok none, s)
  else if ¬ u.getD 0 0 = 62 then
    (.error ⟨"Valid FASTA records start with '>'", false⟩, s)
  else
    match fastaLoop s.consumed s.window s.chunks with
    | (.error e, w, ch) => (.error e, ⟨w, s.consumed, ch⟩)
    | (.ok br, w, ch) =>
      let record := (w.drop s.consumed).take br.rec_end
      let s' : FastaState := ⟨w, s.consumed + br.rec_end, ch⟩
      let header := (record.take br.header_end).drop 1
      let raw_sequence := (record.take br.seq_end).drop br.seq_start
      let sequence :=
        if br.seq_newlines.isEmpty then raw_sequence
        else removeNewlinesGo raw_sequence br.seq_newlines 0
      if isValidUtf8 header then (.ok (some ⟨header, sequence⟩), s')
      else (.error ⟨"invalid utf-8 sequence", false⟩, s')

/-- The bytes of a (pure-ASCII) string literal, for concrete inputs. -/
def strBytes (s : String) : List Nat := s.toList.map Char.toNat

/-- A reader over a complete in-memory slice (`ReadBuffer::from_slice`:
`eof = true`, no further refills). -/
def fastaFromSlice (data : List Nat) : FastaState := ⟨data, 0, []⟩

/-- The results of the first three `next()` calls on an in-memory input. -/
def fastaTake3 (data : List Nat) :
    Except EtErr (Option FastaRecOut) × Except EtErr (Option FastaRecOut) ×
      Except EtErr (Option FastaRecOut) :=
  let r1 := FastaReader.next (fastaFromSlice data)
  let r2 := FastaReader.next r1.2
  let r3 := FastaReader.next r2.2
  (r1.1, r2.1, r3.1)

/-! ### Concrete inputs for the claims -/

/-- A fully well-formed 20-byte burst record for a single-m/z segment:
record index 1, raw time 60000 (one minute), the constant `u16`, a burst
of one m/z, the constant `0xFFFF`, segment word `0x000F` (segment 0), and
one `f32` intensity. -/
def inficonBurstBytes : List Nat :=
  u32le 1 ++ u32le 60000 ++ u16le 1 ++ u16le 1 ++ u16le 65535 ++ u16le 15 ++ u32le 0

/-- The record state right after a successful header parse of a file with
one single-m/z segment, with the given `data_left`. -/
def inficonStateWith (data_left : Nat) : InficonState :=
  { mzSegments := [[1]], dataLeft := data_left, curTime := 0, curMz := 0,
    curIntensity := 0, curSegment := 0, mzsLeft := 0 }

/-- A 600-byte Agilent prelude whose big-endian `u32` at offset 264 is
257, so `header_size = 2 * 256 = 512` for the MS format. -/
def agilentOkInput : List Nat :=
  List.replicate 264 0 ++ [0, 0, 1, 1] ++ List.replicate 332 0

/-- The 16-byte buffer of `error.rs`'s `test_context_display`, with the
given `consumed`. -/
def contextBuf (consumed : Nat) : ReadBuffer :=
  ⟨strBytes "1234567890ABCDEF", consumed, 0, 0⟩

/-! ### Helper lemmas -/

/-- `extract::<Skip>` fails only with the bounds error. -/
theorem extractSkip_error {rb : List Nat} {eof : Bool} {con n : Nat} {e : EtErr}
    (h : extractSkip rb eof con n = .error e) : e = boundsErr eof := by
  unfold extractSkip at h
  split at h <;> simp_all

/-- `extract::<Skip>` under its bound. -/
theorem extractSkip_ok {rb : List Nat} {eof : Bool} {con n : Nat}
    (h : con + n ≤ rb.length) : extractSkip rb eof con n = .ok (con + n) := by
  unfold extractSkip
  rw [if_pos h]

/-- `extract::<u32>` fails only with the bounds error. -/
theorem extractU32le_error {rb : List Nat} {eof : Bool} {con : Nat} {e : EtErr}
    (h : extractU32le rb eof con = .error e) : e = boundsErr eof := by
  unfold extractU32le readBytesAt at h
  split at h <;> simp_all

/-- `extract::<u32>` under its bound. -/
theorem extractU32le_ok {rb : List Nat} {eof : Bool} {con : Nat}
    (h : con + 4 ≤ rb.length) :
    extractU32le rb eof con = .ok (u32leVal ((rb.drop con).take 4), con + 4) := by
  unfold extractU32le readBytesAt
  rw [if_pos h]

/-- What the entry tail can fail with: only the bounds error. -/
theorem parseMzEntryTail_error {rb : List Nat} {eof : Bool}
    {con start_mz end_mz : Nat} {e : EtErr}
    (h : parseMzEntryTail rb eof con start_mz end_mz = .error e) :
    e = boundsErr eof := by
  unfold parseMzEntryTail at h
  cases h16 : extractSkip rb eof con 16 with
  | error e1 => rw [h16] at h; simp at h; subst h; exact extractSkip_error h16
  | ok con1 =>
    rw [h16] at h; simp at h
    cases hu : extractU32le rb eof con1 with
    | error e2 => rw [hu] at h; simp at h; subst h; exact extractU32le_error hu
    | ok v =>
      rw [hu] at h; simp at h
      cases h4 : extractSkip rb eof v.2 4 with
      | error e3 => rw [h4] at h; simp at h; subst h; exact extractSkip_error h4
      | ok con2 =>
        rw [h4] at h
        split at h
        · simp_all
        · split at h <;> simp_all

/-- A spent loop guard: when `mz < end_mz + 1` fails the loop body never
runs, whatever the fuel. -/
theorem scanMzGo_nil (fuel mz end_mz : Nat) (h : ¬ mz < end_mz + 1) :
    scanMzGo fuel mz end_mz = [] := by
  cases fuel <;> simp [scanMzGo, h]

/-- The full-scan loop pushes `start, start+100, …` up to `end_mz`:
`⌊(end_mz − start)/100⌋ + 1` values in all (given enough fuel). -/
theorem scanMzGo_eq (fuel : Nat) :
    ∀ s e : Nat, s ≤ e → e + 1 - s ≤ fuel →
      scanMzGo fuel s e =
        (List.range ((e - s) / 100 + 1)).map
          (fun k : Nat => ((s : ℚ) + 100 * (k : ℚ)) / 100) := by
  induction fuel with
  | zero => intro s e h hf; omega
  | succ fuel ih =>
    intro s e h hf
    rw [scanMzGo, if_pos (by omega)]
    by_cases h2 : s + 100 ≤ e
    · rw [ih (s + 100) e h2 (by omega)]
      have hdiv : (e - s) / 100 + 1 = ((e - (s + 100)) / 100 + 1) + 1 := by
        have hsub : e - s = (e - (s + 100)) + 100 := by omega
        rw [hsub, Nat.add_div_right _ (by norm_num)]
      conv_rhs => rw [hdiv, List.range_succ_eq_map]
      simp only [List.map_cons, List.map_map]
      congr 1
      · norm_num
      · apply List.map_congr_left
        intro k _
        simp only [Function.comp_apply]
        push_cast
        ring_nf
    · have hz : (e - s) / 100 = 0 := Nat.div_eq_of_lt (by omega)
      rw [scanMzGo_nil fuel (s + 100) e (by omega), hz]
      norm_num [List.range_succ]

/-- The full-scan loop pushes `start, start+100, …` up to `end_mz`:
`⌊(end_mz − start)/100⌋ + 1` values in all. -/
theorem scanMzLoop_eq (s e : Nat) (h : s ≤ e) :
    scanMzLoop s e =
      (List.range ((e - s) / 100 + 1)).map
        (fun k : Nat => ((s : ℚ) + 100 * (k : ℚ)) / 100) :=
  scanMzGo_eq (e + 1 - s) s e h le_rfl

/-! ### The claims -/

set_option maxRecDepth 400000

/-- C1: refuted by the code as written.  With `data_left = 1 > 0` and a
fully well-formed burst in the window, `InficonRecord::parse` returns
`Ok(false)` — it reports end-of-stream instead of producing the record —
and with `data_left = 0`, where the claim demands end-of-stream, it does
not report end-of-stream but attempts to parse a record (line 120 tests
`data_left > 0` where the spec's convention requires `data_left == 0`). -/
theorem claim_C1 :
    (InficonRecord.parse inficonBurstBytes true 0 (inficonStateWith 1)).res = .ok false ∧
    (InficonRecord.parse inficonBurstBytes true 0 (inficonStateWith 0)).res ≠ .ok false := by
  decide

/-- C2: each of the four fuzz payloads makes producer construction
return an error, but the safety half of the claim fails: on a well-formed
input whose data section is reached, the burst m/z lookup
`mz_segments[cur_segment][len - mzs_left]` reads the stale field
`state.mzs_left` (still 0 at burst start) instead of the freshly read
local burst length, so the index equals the segment length and the
lookup panics out of bounds. -/
theorem claim_C2 :
    (isErr (inficonReaderNew inficonFuzz1) = true ∧
     isErr (inficonReaderNew inficonFuzz2) = true ∧
     isErr (inficonReaderNew inficonFuzz3) = true ∧
     isErr (inficonReaderNew inficonFuzz4) = true) ∧
    inficonFirstRecord inficonPanicInput = .panic "index out of bounds" := by
  decide

/-- C3: refuted at a concrete full-scan entry.  For
`start_mz = 100`, `end_mz = 150`, `i_type = 1` the entry pushes exactly
one value (the loop steps `mz += 100`), not the
`end_mz - start_mz + 1 = 51` integers the claim asserts. -/
theorem claim_C3_counterexample :
    parseMzEntry
        (u32le 100 ++ u32le 150 ++ List.replicate 16 0 ++ u32le 1 ++ List.replicate 4 0)
        true 0
      = .ok ([1], 32) ∧ ¬ (1 : Nat) = 150 - 100 + 1 := by
  refine ⟨?_, by decide⟩
  norm_num [parseMzEntry, parseMzEntryTail, extractU32le, extractSkip, readBytesAt,
    u32leVal, u32le, scanMzLoop, scanMzGo]

/-- C3 (amended): a SIM entry (`i_type = 0`) pushes the single value
`start_mz / 100`; a full-scan entry pushes the values
`(start_mz + 100·k) / 100` for `k < (end_mz - start_mz) / 100 + 1`,
i.e. it steps the raw value by 100 (one full m/z unit), gaining
`(end_mz - start_mz) / 100 + 1` values — not one value per raw integer. -/
theorem claim_C3_thm (rb : List Nat) (eof : Bool) (con s e itype : Nat)
    (h32 : con + 32 ≤ rb.length)
    (hs : s = u32leVal ((rb.drop con).take 4))
    (he : e = u32leVal ((rb.drop (con + 4)).take 4))
    (hit : itype = u32leVal ((rb.drop (con + 24)).take 4))
    (hrange : s < e ∧ e < 4000000000) :
    parseMzEntry rb eof con =
      .ok ((if itype = 0 then [(s : ℚ) / 100]
            else (List.range ((e - s) / 100 + 1)).map
              (fun k : Nat => ((s : ℚ) + 100 * (k : ℚ)) / 100)),
           con + 32) := by
  unfold parseMzEntry parseMzEntryTail
  rw [extractU32le_ok (show con + 4 ≤ rb.length by omega)]
  dsimp only []
  rw [extractU32le_ok (show con + 4 + 4 ≤ rb.length by omega)]
  dsimp only []
  rw [← hs, ← he, if_neg (by omega)]
  rw [extractSkip_ok (show con + 4 + 4 + 16 ≤ rb.length by omega)]
  dsimp only []
  rw [show con + 4 + 4 + 16 = con + 24 from by omega]
  rw [extractU32le_ok (show con + 24 + 4 ≤ rb.length by omega)]
  dsimp only []
  rw [← hit]
  rw [extractSkip_ok (show con + 24 + 4 + 4 ≤ rb.length by omega)]
  dsimp only []
  rw [show con + 24 + 4 + 4 = con + 32 from by omega]
  by_cases hzt : itype = 0
  · rw [if_pos hzt, if_pos hzt]
  · rw [if_neg hzt, if_neg hzt, scanMzLoop_eq s e (by omega)]

/-- C3 witness: the amended theorem applied to the counterexample's
concrete full-scan entry. -/
theorem claim_C3_witness :
    parseMzEntry
        (u32le 100 ++ u32le 150 ++ List.replicate 16 0 ++ u32le 1 ++ List.replicate 4 0)
        true 0
      = .ok ((if (1 : Nat) = 0 then [(100 : ℚ) / 100]
              else (List.range ((150 - 100) / 100 + 1)).map
                (fun k : Nat => ((100 : ℚ) + 100 * (k : ℚ)) / 100)), 32) :=
  claim_C3_thm _ true 0 100 150 1 (by decide) (by decide) (by decide) (by decide)
    ⟨by decide, by decide⟩

/-- C4: for every slice of at least 268 bytes, `read_agilent_header`
reads the big-endian `u32` `raw` at offset 264, rejects `raw = 0` with
"Invalid header length of 0", computes `header_size = 2 * (raw - 1)`
(times 256 when not the MS format), rejects `header_size < 512` as too
short and `header_size > 20000` as too long, and otherwise — when the
slice holds `header_size` bytes — returns `header_size`. -/
theorem claim_C4 (rb : List Nat) (ms_format : Bool) (raw hsz : Nat)
    (hlen : 268 ≤ rb.length)
    (hraw : raw = u32beVal ((rb.drop 264).take 4))
    (hhsz : hsz = 2 * (raw - 1) * (if ms_format then 1 else 256)) :
    (raw = 0 →
      read_agilent_header rb ms_format = .error ⟨"Invalid header length of 0", false⟩) ∧
    (¬ raw = 0 → hsz < 512 →
      read_agilent_header rb ms_format = .error ⟨"Header length too short", false⟩) ∧
    (¬ raw = 0 → 20000 < hsz →
      read_agilent_header rb ms_format = .error ⟨"Header length too long", false⟩) ∧
    (¬ raw = 0 → 512 ≤ hsz → hsz ≤ 20000 → hsz ≤ rb.length →
      read_agilent_header rb ms_format = .ok hsz) := by
  unfold read_agilent_header
  rw [if_neg (by omega)]
  simp only [← hraw, ← hhsz]
  refine ⟨fun h0 => ?_, fun h0 hshort => ?_, fun h0 hlong => ?_,
          fun h0 hlo hhi hfit => ?_⟩
  · rw [if_pos h0]
  · rw [if_neg h0, if_pos hshort]
  · rw [if_neg h0, if_neg (by omega), if_pos hlong]
  · rw [if_neg h0, if_neg (by omega), if_neg (by omega),
        extractSkip_ok (show 0 + hsz ≤ rb.length by omega)]
    simp

/-- C4 witness: the success branch at a concrete 600-byte prelude with
`raw = 257` and the MS format, returning `header_size = 512`. -/
theorem claim_C4_witness :
    read_agilent_header agilentOkInput true = .ok 512 :=
  (claim_C4 agilentOkInput true 257 512 (by decide) (by decide) (by decide)).2.2.2
    (by decide) (by decide) (by decide) (by decide)

/-- C5: on the CRLF input the FASTA reader yields exactly
`("id", "ACGTAAAA")`, then `("id2", "TGCA")`, then `None` — interior
newlines and their preceding carriage returns are stripped — and the
LF-only input yields the same records. -/
theorem claim_C5 :
    fastaTake3 (strBytes ">id\r\nACGT\r\nAAAA\r\n>id2\r\nTGCA\r\n")
      = (.ok (some ⟨strBytes "id", strBytes "ACGTAAAA"⟩),
         .ok (some ⟨strBytes "id2", strBytes "TGCA"⟩),
         .ok none) ∧
    fastaTake3 (strBytes ">id\nACGT\nAAAA\n>id2\nTGCA")
      = (.ok (some ⟨strBytes "id", strBytes "ACGTAAAA"⟩),
         .ok (some ⟨strBytes "id2", strBytes "TGCA"⟩),
         .ok none) := by
  decide

/-- C6: refuted on the `consumed = 10` half.  The caret row is the Rust
format `{:>width$}` with `width = 2 * context_pos = 20`: the two carets
are right-aligned in a field of 20 characters, so the row is indented by
18 spaces, not by 20 as the claim says. -/
theorem claim_C6_counterexample :
    ¬ EtError.display ((EtError.new "Test").add_context (contextBuf 10)) =
      "Test\n31323334353637383930414243444546\n 1 2 3 4 5 6 7 8 9 0 A B C D E F\n                    ^^ 10\n" := by
  decide

/-- C6 (amended): with `consumed = 0` the display is exactly the four
claimed lines, and with `consumed = 10` the caret row is right-aligned
to width 20 — 18 spaces of indent before `^^` — and ends with ` 10`. -/
theorem claim_C6_thm :
    EtError.display ((EtError.new "Test").add_context (contextBuf 0)) =
      "Test\n31323334353637383930414243444546\n 1 2 3 4 5 6 7 8 9 0 A B C D E F\n^^ 0\n" ∧
    EtError.display ((EtError.new "Test").add_context (contextBuf 10)) =
      "Test\n31323334353637383930414243444546\n 1 2 3 4 5 6 7 8 9 0 A B C D E F\n                  ^^ 10\n" := by
  decide

/-- C7: refuted on the message wording.  A violating entry makes
`InficonState::parse` fail with the message
"m/z range **is** too big or invalid" (line 58), not the claim's
"m/z range too big or invalid". -/
theorem claim_C7_counterexample :
    parseMzEntry (u32le 5 ++ u32le 3 ++ List.replicate 24 0) true 0
      = .error ⟨"m/z range is too big or invalid", false⟩ ∧
    ¬ "m/z range is too big or invalid" = "m/z range too big or invalid" := by
  refine ⟨by decide, by decide⟩

/-- C7 (amended): an entry whose two little-endian `u32` values violate
`start_mz < end_mz < 4·10⁹` fails with the terminal (non-incomplete)
error "m/z range is too big or invalid", and an entry satisfying the
invariant never produces that message. -/
theorem claim_C7_thm (rb : List Nat) (eof : Bool) (con s e : Nat)
    (h8 : con + 8 ≤ rb.length)
    (hs : s = u32leVal ((rb.drop con).take 4))
    (he : e = u32leVal ((rb.drop (con + 4)).take 4)) :
    ((e ≤ s ∨ 4000000000 ≤ e) →
      parseMzEntry rb eof con = .error ⟨"m/z range is too big or invalid", false⟩) ∧
    ((s < e ∧ e < 4000000000) → ∀ err : EtErr,
      parseMzEntry rb eof con = .error err →
      ¬ err.msg = "m/z range is too big or invalid") := by
  unfold parseMzEntry
  rw [extractU32le_ok (show con + 4 ≤ rb.length by omega)]
  dsimp only []
  rw [extractU32le_ok (show con + 4 + 4 ≤ rb.length by omega)]
  dsimp only []
  rw [← hs, ← he]
  constructor
  · intro hbad
    rw [if_pos (by omega)]
  · intro hgood err herr
    rw [if_neg (by omega)] at herr
    have hmsg := parseMzEntryTail_error herr
    subst hmsg
    simp only [boundsErr]
    decide

/-- C7 witness: the amended theorem's error branch at the concrete
violating entry `start_mz = 5 ≥ end_mz = 3`. -/
theorem claim_C7_witness :
    parseMzEntry (u32le 5 ++ u32le 3 ++ List.replicate 24 0) true 0
      = .error ⟨"m/z range is too big or invalid", false⟩ :=
  (claim_C7_thm (u32le 5 ++ u32le 3 ++ List.replicate 24 0) true 0 5 3
    (by decide) (by decide) (by decide)).1 (by omega)

/-- C8: whenever `InficonState::parse` returns an error, the
caller-visible `consumed` counter is unchanged — every extraction
advances only the local cursor `con`, which is added to `consumed` on
the single success exit. -/
theorem claim_C8 (rb : List Nat) (eof : Bool) (consumed : Nat)
    (st : List (List ℚ) × Nat) (e : EtErr)
    (h : (InficonState.parse rb eof consumed st).res = .error e) :
    (InficonState.parse rb eof consumed st).consumed = consumed := by
  unfold InficonState.parse at h ⊢
  cases hb : inficonStateBody rb eof with
  | error e1 => rfl
  | ok v =>
      rw [hb] at h
      obtain ⟨segs, dl, con⟩ := v
      simp at h

/-- C8 witness: the empty slice errors (the m/z header pattern is
absent) and leaves `consumed = 5` as it was. -/
theorem claim_C8_witness :
    (InficonState.parse [] true 5 ([], 0)).consumed = 5 :=
  claim_C8 [] true 5 ([], 0) ⟨"Could not find m/z header list", false⟩ (by decide)

/-- C9: `FastaReader::next` returns `Ok(None)` exactly when the unread
window is empty at entry, and then it changes nothing — no refill is
attempted even when the source still has chunks — so after a `None` every
further call returns `None` again. -/
theorem claim_C9 (s : FastaState) :
    ((FastaReader.next s).1 = .ok none ↔ s.window.drop s.consumed = []) ∧
    ((FastaReader.next s).1 = .ok none → FastaReader.next s = (.ok none, s)) := by
  by_cases hemp : (s.window.drop s.consumed).isEmpty
  · have hnil : s.window.drop s.consumed = [] := List.isEmpty_iff.mp hemp
    have hnext : FastaReader.next s = (.ok none, s) := by
      unfold FastaReader.next
      dsimp only []
      rw [if_pos hemp]
    rw [hnext]
    exact ⟨⟨fun _ => hnil, fun _ => rfl⟩, fun _ => rfl⟩
  · have hne : ¬ s.window.drop s.consumed = [] := fun hh => hemp (by rw [hh]; rfl)
    have hx : ¬ (FastaReader.next s).1 = .ok none := by
      unfold FastaReader.next
      dsimp only []
      rw [if_neg hemp]
      split
      · simp
      · rcases hfl : fastaLoop s.consumed s.window s.chunks with ⟨res, w, ch⟩
        cases res with
        | error e1 => simp
        | ok br =>
          dsimp only []
          split <;> simp
    exact ⟨⟨fun hok => absurd hok hx, fun hnil => absurd hnil hne⟩,
           fun hok => absurd hok hx⟩

/-- C9 witness: a state whose unread window is empty while the source
still holds a chunk (not at eof): `next` returns `Ok(None)` and leaves
the state untouched. -/
theorem claim_C9_witness :
    ((FastaReader.next ⟨[62], 1, [[65]]⟩).1 = .ok none ↔ ([62] : List Nat).drop 1 = []) ∧
    ((FastaReader.next ⟨[62], 1, [[65]]⟩).1 = .ok none →
      FastaReader.next ⟨[62], 1, [[65]]⟩ = (.ok none, ⟨[62], 1, [[65]]⟩)) :=
  claim_C9 ⟨[62], 1, [[65]]⟩

/-- C10: `add_context` always attaches a context whose `byte` is
`reader_pos + consumed`, whose window holds at most 32 bytes, and whose
`context_pos` is at most 16; when the buffer is fully consumed with
`consumed ≥ 16` the context is empty with `context_pos = 0`. -/
theorem claim_C10 (err : EtError) (buffer : ReadBuffer) :
    ∃ c : EtErrorContext, (err.add_context buffer).context = some c ∧
      c.byte = buffer.reader_pos + buffer.consumed ∧
      c.context.length ≤ 32 ∧ c.context_pos ≤ 16 ∧
      (buffer.window.length ≤ buffer.consumed → 16 ≤ buffer.consumed →
        c.context = [] ∧ c.context_pos = 0) := by
  unfold EtError.add_context
  dsimp only []
  by_cases h1 : buffer.consumed < 16
  · by_cases h2 : buffer.window.length < buffer.consumed + 16
    · rw [if_pos h1, if_pos h2]
      exact ⟨_, rfl, rfl, by dsimp only []; omega, by dsimp only []; omega,
             fun hA hB => (by omega : False).elim⟩
    · rw [if_pos h1, if_neg h2]
      refine ⟨_, rfl, rfl, ?_, by dsimp only []; omega,
              fun hA hB => (by omega : False).elim⟩
      dsimp only []
      simp only [List.length_take]
      omega
  · by_cases h2 : buffer.window.length < buffer.consumed + 16
    · rw [if_neg h1, if_pos h2]
      by_cases h3 : buffer.consumed < buffer.window.length
      · rw [if_pos h3]
        refine ⟨_, rfl, rfl, ?_, by dsimp only []; omega,
                fun hA hB => (by omega : False).elim⟩
        dsimp only []
        simp only [List.length_drop]
        omega
      · rw [if_neg h3]
        exact ⟨_, rfl, rfl, by dsimp only []; simp, by dsimp only []; omega,
               fun _ _ => ⟨rfl, rfl⟩⟩
    · rw [if_neg h1, if_neg h2]
      refine ⟨_, rfl, rfl, ?_, by dsimp only []; omega,
              fun hA hB => (by omega : False).elim⟩
      dsimp only []
      simp only [List.length_take]
      omega

/-- C10 witness: a fully consumed buffer (`consumed = 20 ≥ len = 3`,
`consumed ≥ 16`): the context is empty, `context_pos = 0`, and
`byte = reader_pos + consumed = 27`. -/
theorem claim_C10_witness :
    ∃ c : EtErrorContext,
      ((EtError.new "Test").add_context ⟨[1, 2, 3], 20, 7, 0⟩).context = some c ∧
      c.byte = 7 + 20 ∧ c.context.length ≤ 32 ∧ c.context_pos ≤ 16 ∧
      (([1, 2, 3] : List Nat).length ≤ 20 → 16 ≤ 20 →
        c.context = [] ∧ c.context_pos = 0) :=
  claim_C10 (EtError.new "Test") ⟨[1, 2, 3], 20, 7, 0⟩

end Entab
